import Mathlib

/-!
Verification of the SentinelVoice audio pipeline (src/App.tsx,
src/components/LiveMicIndicator.tsx, src/components/MiniWaveform.tsx,
src/components/SettingsPanel.tsx, src/services/geminiService.ts) against its
natural-language specification.

Sample values, gain factors and normalized volumes are modelled as rationals
(the JavaScript arithmetic involved here is exact: divisions by the powers of
two 32768 and 128 are exact on the int16 / byte ranges involved, and the
specific gain values the spec names are exact); a JavaScript NaN outcome is
modelled as `none`.
-/

namespace SentinelVoice

/-- A finalized audio object: `new Blob(parts, { type })` concatenates the
parts' bytes in order and tags the result with the given MIME type
(App.tsx line 58). -/
structure Blob where
  data : List Nat
  type : String
deriving DecidableEq

/-- The result of `ctx.createBuffer(1, len, 24000)` filled by the decode loop
(App.tsx lines 119-123): one channel, fixed 24 kHz rate, rational samples. -/
structure AudioBuffer where
  numChannels : Nat
  sampleRate : Nat
  samples : List ℚ
deriving DecidableEq

/-- Reading two consecutive bytes of the underlying buffer as one 16-bit
signed little-endian integer, as `new Int16Array(data.buffer)` does
(App.tsx line 118). -/
def int16OfLEBytes (lo hi : Nat) : Int :=
  let u := lo + 256 * hi
  if u < 32768 then (u : Int) else (u : Int) - 65536

/-- The int16 view of a byte list: consecutive little-endian pairs. -/
def toInt16Pairs : List Nat → List Int
  | [] => []
  | [_] => []
  | lo :: hi :: rest => int16OfLEBytes lo hi :: toInt16Pairs rest

/-- `decodeRawPCM` (App.tsx lines 117-125): views the bytes as an
`Int16Array` (little-endian pairs), writes `dataInt16[i] / 32768.0` into a
mono buffer created at the fixed 24000 Hz rate.  Two error paths, both
modelled as `none`: `new Int16Array(buffer)` throws a `RangeError` when the
byte length is not a multiple of 2, and `ctx.createBuffer(1, 0, 24000)`
throws a `NotSupportedError` when the buffer is empty (zero frames). -/
def decodeRawPCM (data : List Nat) : Option AudioBuffer :=
  if data.length % 2 = 0 ∧ data.length ≠ 0 then
    some { numChannels := 1
           sampleRate := 24000
           samples := (toInt16Pairs data).map (fun v : Int => (v : ℚ) / 32768) }
  else
    none

/-- Outcome of the playback path of `handleSpeak` (App.tsx lines 109-135):
either a decoded buffer is scheduled for playback, or the thrown error is
caught by the surrounding try/catch, logged with
`console.error("Speech playback error:", e)` and not rethrown. -/
inductive SpeakOutcome where
  | played (buf : AudioBuffer)
  | loggedError
deriving DecidableEq

/-- The playback portion of `handleSpeak` applied to the bytes returned by
the synthesis call: decode, then schedule; every exception is caught by the
enclosing try/catch and only logged. -/
def handleSpeak (audioBytes : List Nat) : SpeakOutcome :=
  match decodeRawPCM audioBytes with
  | some buf => SpeakOutcome.played buf
  | none => SpeakOutcome.loggedError

/-- `gainNode.gain.value = (sensitivity / 50)` (App.tsx line 44). -/
def gainFactor (s : Nat) : ℚ := (s : ℚ) / 50

/-- `analyzer.fftSize = 64` in LiveMicIndicator.tsx (line 27). -/
def liveMicFFTSize : Nat := 64

/-- `analyzer.frequencyBinCount` is half the fftSize: the fixed length of the
live-mic indicator's bin buffer (`bufferLength`, LiveMicIndicator.tsx
line 31). -/
def liveMicBinCount : Nat := liveMicFFTSize / 2

/-- `analyzer.fftSize = 32` in MiniWaveform.tsx (line 26). -/
def miniFFTSize : Nat := 32

/-- The mini waveform's bin buffer length, `analyzer.frequencyBinCount`
(MiniWaveform.tsx line 30). -/
def miniBinCount : Nat := miniFFTSize / 2

/-- The body of `updateVolume` (LiveMicIndicator.tsx lines 38-44): sum the
byte magnitudes, `average = sum / bufferLength`,
`normalizedVolume = Math.min(1, average / 128)`.  When the bin buffer is
empty the JavaScript code computes `0 / 0 = NaN` and `Math.min(1, NaN) = NaN`,
modelled as `none`. -/
def updateVolume (dataArray : List Nat) : Option ℚ :=
  if dataArray.length = 0 then none
  else
    some (min 1 (((dataArray.sum : ℚ) / (dataArray.length : ℚ)) / 128))

/-- The band extraction of `update` (MiniWaveform.tsx lines 37-39):
`[dataArray[1] / 255, dataArray[4] / 255, dataArray[8] / 255]`.  In the code
the buffer always has the fixed length `miniBinCount = 16`, so the indices
are in range; out-of-range reads default to 0 here. -/
def miniBands (dataArray : List Nat) : List ℚ :=
  [ (dataArray.getD 1 0 : ℚ) / 255
  , (dataArray.getD 4 0 : ℚ) / 255
  , (dataArray.getD 8 0 : ℚ) / 255 ]

/-- The spec's formula for the analyzer's scalar volume: mean magnitude over
all bins, divided by the reference ceiling 128, clamped to 1. -/
def scalarVolumeSpec (dataArray : List Nat) : ℚ :=
  min 1 (((dataArray.sum : ℚ) / (dataArray.length : ℚ)) / 128)

/-!
## Recording session state machine

The refs of `App` (App.tsx lines 21-24) plus the recorder and stream objects
they point at, and the `sensitivity` state consumed by `startRecording`.
Recorders and acquired streams are tracked positionally, in creation order:
`recStates.get i = true` means recorder `i` is in its `"recording"` state,
`streamStopped.get j = true` means every track of stream `j` has been
stopped.  `curRec` / `curStream` model `mediaRecorderRef` / `streamRef`,
`chunks` models `audioChunksRef.current`, `appliedGain` the `gain.value` of
the gain node built by the most recent `startRecording`, and `finalized` the
blobs handed to `handleAudioProcess` by `onstop` handlers, in order.
-/

structure AppState where
  recStates : List Bool
  curRec : Option Nat
  chunks : List (List Nat)
  streamStopped : List Bool
  curStream : Option Nat
  isRecording : Bool
  sensitivity : Nat
  appliedGain : Option ℚ
  finalized : List Blob
deriving DecidableEq

/-- The initial component state: no recorder, no stream, empty chunk buffer,
`useState(50)` for sensitivity (App.tsx line 19). -/
def initState : AppState :=
  { recStates := []
    curRec := none
    chunks := []
    streamStopped := []
    curStream := none
    isRecording := false
    sensitivity := 50
    appliedGain := none
    finalized := [] }

/-- Events driving the session state machine. -/
inductive Ev where
  /-- `startRecording` succeeding (App.tsx lines 26-64): the chunk buffer is
  cleared, a stream is acquired, the gain graph is built with
  `gain.value = sensitivity / 50`, a fresh recorder is created and started. -/
  | start
  /-- `startRecording` where `getUserMedia` succeeds but a later setup step
  throws: control jumps to the catch block (lines 65-68), which only logs and
  sets an error message; the acquired stream is left untouched. -/
  | startFailSetup
  /-- `startRecording` where `getUserMedia` itself rejects: the chunk buffer
  was already cleared (line 28); the catch block only logs. -/
  | startFailAcquire
  /-- Recorder `i` fires `ondataavailable` with chunk bytes `c` (lines 53-55):
  only a recorder still in its recording state fires, and the handler appends
  the chunk iff `e.data.size > 0`. -/
  | dataAvail (i : Nat) (c : List Nat)
  /-- `stopRecording` (lines 71-79): stop the current recorder if it is
  recording (its `onstop` then builds the Blob from the chunk buffer, which
  is NOT cleared), then stop every track of the current stream. -/
  | stop
  /-- The settings slider firing `onSensitivityChange` (SettingsPanel.tsx
  line 153), which is `setSensitivity` (App.tsx line 362): only the React
  state changes; no existing gain node is touched. -/
  | setSens (s : Nat)
deriving DecidableEq

/-- Number of recorders currently in the `"recording"` state. -/
def countRecording (st : AppState) : Nat := st.recStates.count true

/-- The first half of `stopRecording` (App.tsx lines 72-74): if the current
recorder is in its recording state, `mediaRecorderRef.current.stop()` — the
recorder leaves the recording state and its `onstop` handler builds the Blob
from the chunk buffer (which is NOT cleared) and hands it off. -/
def stopRecorderPart (st : AppState) : AppState :=
  match st.curRec with
  | some i =>
    if st.recStates.getD i false = true then
      { st with
        recStates := st.recStates.set i false
        finalized := st.finalized ++ [{ data := st.chunks.flatten, type := "audio/webm" }] }
    else st
  | none => st

/-- The second half of `stopRecording` (App.tsx lines 75-77): stop every
track of the currently referenced stream. -/
def stopStreamPart (st : AppState) : AppState :=
  match st.curStream with
  | some j => { st with streamStopped := st.streamStopped.set j true }
  | none => st

/-- One step of the session state machine; each branch follows the cited
source lines. -/
def step (st : AppState) : Ev → AppState
  | Ev.start =>
    { st with
      chunks := []
      streamStopped := st.streamStopped ++ [false]
      curStream := some st.streamStopped.length
      appliedGain := some (gainFactor st.sensitivity)
      recStates := st.recStates ++ [true]
      curRec := some st.recStates.length
      isRecording := true }
  | Ev.startFailSetup =>
    { st with
      chunks := []
      streamStopped := st.streamStopped ++ [false]
      curStream := some st.streamStopped.length }
  | Ev.startFailAcquire =>
    { st with chunks := [] }
  | Ev.dataAvail i c =>
    if st.recStates.getD i false = true ∧ c ≠ [] then
      { st with chunks := st.chunks ++ [c] }
    else st
  | Ev.stop => { stopStreamPart (stopRecorderPart st) with isRecording := false }
  | Ev.setSens s => { st with sensitivity := s }

/-- Running a sequence of events from a state. -/
def run (st : AppState) (es : List Ev) : AppState := es.foldl step st

/-!
## GeminiService (src/services/geminiService.ts)

`speak` extracts `response.candidates?.[0]?.content?.parts?.[0]?.inlineData?.data`
(modelled as `Option String`), throws `"No audio returned"` when that value
is absent or the empty string (both falsy in JavaScript), and otherwise
returns `decodeBase64(base64Audio)`.  `decodeBase64` calls the platform
`atob` (which throws on input that is not valid base64) and copies the
resulting binary string's character codes into a byte array.
-/

/-- Value of one character in the standard base64 alphabet, following the
platform `atob` character table. -/
def b64Val (c : Char) : Option Nat :=
  if 'A' ≤ c ∧ c ≤ 'Z' then some (c.toNat - 65)
  else if 'a' ≤ c ∧ c ≤ 'z' then some (c.toNat - 97 + 26)
  else if '0' ≤ c ∧ c ≤ '9' then some (c.toNat - 48 + 52)
  else if c = '+' then some 62
  else if c = '/' then some 63
  else none

/-- Reassemble bytes from 6-bit groups, four groups to three bytes; a final
group of two or three values yields one or two bytes, and a dangling single
value is invalid. -/
def b64Chunks : List Nat → Option (List Nat)
  | [] => some []
  | [_] => none
  | [a, b] => some [a * 4 + b / 16]
  | [a, b, c] => some [a * 4 + b / 16, b % 16 * 16 + c / 4]
  | a :: b :: c :: d :: rest =>
    (b64Chunks rest).map
      (fun t => (a * 4 + b / 16) :: (b % 16 * 16 + c / 4) :: (c % 4 * 64 + d) :: t)

/-- Drop up to two trailing padding characters. -/
def stripB64Pad (cs : List Char) : List Char :=
  match cs.reverse with
  | '=' :: '=' :: rest => rest.reverse
  | '=' :: rest => rest.reverse
  | _ => cs

/-- Model of the platform `atob`: base64-decode to the byte values of the
binary string; `none` models the `InvalidCharacterError` it throws on input
that is not valid base64. -/
def atob (s : String) : Option (List Nat) := do
  let vals ← (stripB64Pad s.data).mapM b64Val
  b64Chunks vals

/-- `GeminiService.decodeBase64` (geminiService.ts lines 179-187): `atob`,
then `bytes[i] = binaryString.charCodeAt(i)`; since the `atob` model already
yields byte values, the copy loop is the identity. -/
def decodeBase64 (base64 : String) : Option (List Nat) := atob base64

/-- The part of the synthesis response that `speak` reads:
`candidates?.[0]?.content?.parts?.[0]?.inlineData?.data`. -/
structure SpeakResponse where
  inlineData : Option String
deriving DecidableEq

/-- `GeminiService.speak` (geminiService.ts lines 156-177) applied to a
synthesis response: `if (!base64Audio) throw new Error("No audio returned")`
(absent or empty string, both falsy), otherwise
`return this.decodeBase64(base64Audio)`; `atob` throwing on malformed base64
propagates out of `speak`. -/
def speak (resp : SpeakResponse) : Except String (List Nat) :=
  match resp.inlineData with
  | none => Except.error "No audio returned"
  | some b64 =>
    if b64 = "" then Except.error "No audio returned"
    else
      match decodeBase64 b64 with
      | some bytes => Except.ok bytes
      | none => Except.error "InvalidCharacterError"

/-!
## Helper lemmas
-/

theorem toInt16Pairs_length : ∀ l : List Nat, (toInt16Pairs l).length = l.length / 2
  | [] => by simp [toInt16Pairs]
  | [_] => by simp [toInt16Pairs]
  | _ :: _ :: rest => by
    simp only [toInt16Pairs, List.length_cons, toInt16Pairs_length rest]
    omega

theorem toInt16Pairs_getD : ∀ (l : List Nat) (i : Nat),
    i < (toInt16Pairs l).length →
    (toInt16Pairs l).getD i 0 = int16OfLEBytes (l.getD (2 * i) 0) (l.getD (2 * i + 1) 0)
  | [], i, h => by simp [toInt16Pairs] at h
  | [_], i, h => by simp [toInt16Pairs] at h
  | lo :: hi :: rest, 0, _ => by simp [toInt16Pairs]
  | lo :: hi :: rest, i + 1, h => by
    have ih := toInt16Pairs_getD rest i (by simpa [toInt16Pairs] using h)
    have h2 : 2 * (i + 1) = 2 * i + 1 + 1 := by ring
    have h3 : 2 * (i + 1) + 1 = 2 * i + 1 + 1 + 1 := by ring
    rw [h3, h2]
    show (int16OfLEBytes lo hi :: toInt16Pairs rest).getD (i + 1) 0 = _
    rw [List.getD_cons_succ, List.getD_cons_succ, List.getD_cons_succ,
      List.getD_cons_succ, List.getD_cons_succ, ih]

theorem getD_map_div32768 : ∀ (l : List Int) (i : Nat),
    (l.map (fun v : Int => (v : ℚ) / 32768)).getD i 0 = ((l.getD i 0 : Int) : ℚ) / 32768
  | [], i => by simp
  | x :: xs, 0 => by simp
  | x :: xs, i + 1 => by simpa using getD_map_div32768 xs i

theorem getD_le_of_forall_le {l : List Nat} {b : Nat} (h : ∀ x ∈ l, x ≤ b) (i : Nat) :
    l.getD i 0 ≤ b := by
  induction l generalizing i with
  | nil => simp
  | cons x xs ih =>
    cases i with
    | zero => exact h x (List.mem_cons_self x xs)
    | succ n => exact ih (fun y hy => h y (List.mem_cons_of_mem x hy)) n

theorem set_append_singleton (l : List Bool) (b c : Bool) :
    (l ++ [b]).set l.length c = l ++ [c] := by
  induction l with
  | nil => rfl
  | cons x xs ih => simp [List.set, ih]

theorem getD_append_singleton (l : List Bool) (c : Bool) :
    (l ++ [c]).getD l.length false = c := by
  induction l with
  | nil => rfl
  | cons x xs ih => simp [ih]

theorem count_true_set_false (l : List Bool) (i : Nat) :
    (l.set i false).count true ≤ l.count true := by
  induction l generalizing i with
  | nil => simp
  | cons x xs ih =>
    cases i with
    | zero => cases x <;> simp [List.set, List.count_cons]
    | succ n =>
      have := ih n
      cases x <;> simp [List.set, List.count_cons] <;> omega

/-!
## C2 — gain factor
-/

/-- C2: for every GainSetting `s ∈ [0,100]`, starting a recording applies the
gain factor `s / 50` to the capture stream's gain node; in particular
`gainFactor 50 = 1`, `gainFactor 0 = 0` and `gainFactor 100 = 2`. -/
theorem gain_factor_linear (s : Nat) (_hs : s ≤ 100) (st : AppState)
    (h : st.sensitivity = s) :
    (step st Ev.start).appliedGain = some ((s : ℚ) / 50) ∧
    gainFactor 50 = 1 ∧ gainFactor 0 = 0 ∧ gainFactor 100 = 2 := by
  refine ⟨by simp [step, gainFactor, h], ?_, ?_, ?_⟩ <;> norm_num [gainFactor]

/-- Witness for `gain_factor_linear` at `s = 50` on the initial state. -/
theorem gain_factor_linear_witness :
    (50 ≤ 100 ∧ initState.sensitivity = 50) ∧
    (step initState Ev.start).appliedGain = some ((50 : ℚ) / 50) := by
  refine ⟨⟨by norm_num, rfl⟩, ?_⟩
  exact (gain_factor_linear 50 (by norm_num) initState rfl).1

/-!
## C3 — playback decode is deterministic and lossless
-/

/-- C3 counterexample: the empty byte buffer has even length, yet the decode
does not produce a buffer: `ctx.createBuffer(1, 0, 24000)` throws a
`NotSupportedError` on zero frames, so the claim that every even-length
input decodes into a mono buffer fails at `[]` (the spec itself classifies
an empty buffer as malformed input). -/
theorem decode_empty_counterexample :
    ([] : List Nat).length % 2 = 0 ∧ decodeRawPCM [] = none := by
  exact ⟨rfl, rfl⟩

/-- C3 amended: on every NON-EMPTY even-length byte buffer the decode
succeeds with a mono buffer at the fixed 24 kHz rate whose `i`-th sample is
the `i`-th 16-bit signed little-endian input value divided by 32768; the
concrete 4-byte input `[0x00, 0x80, 0x00, 0x00]` (int16 values -32768, 0)
decodes to the samples `[-1, 0]`; the empty buffer — even-length but zero
frames — fails the decode instead (see the counterexample). -/
theorem decode_lossless (data : List Nat) (h : data.length % 2 = 0)
    (hne : data ≠ []) :
    (∃ buf : AudioBuffer, decodeRawPCM data = some buf ∧
      buf.numChannels = 1 ∧ buf.sampleRate = 24000 ∧
      buf.samples.length = data.length / 2 ∧
      ∀ i, i < buf.samples.length →
        buf.samples.getD i 0 =
          ((int16OfLEBytes (data.getD (2 * i) 0) (data.getD (2 * i + 1) 0) : Int) : ℚ) / 32768) ∧
    decodeRawPCM [0, 128, 0, 0] =
      some { numChannels := 1, sampleRate := 24000, samples := [-1, 0] } := by
  have hlen : data.length ≠ 0 := fun h0 => hne (List.length_eq_zero.mp h0)
  constructor
  · refine ⟨{ numChannels := 1, sampleRate := 24000
              samples := (toInt16Pairs data).map (fun v : Int => (v : ℚ) / 32768) },
      ?_, rfl, rfl, ?_, ?_⟩
    · unfold decodeRawPCM
      rw [if_pos ⟨h, hlen⟩]
    · simp [toInt16Pairs_length]
    · intro i hi
      have hi2 : i < (toInt16Pairs data).length := by
        simpa using hi
      rw [getD_map_div32768, toInt16Pairs_getD data i hi2]
  · norm_num [decodeRawPCM, toInt16Pairs, int16OfLEBytes]

/-- Witness for `decode_lossless` at the spec's concrete input. -/
theorem decode_lossless_witness :
    (([0, 128, 0, 0] : List Nat).length % 2 = 0 ∧ ([0, 128, 0, 0] : List Nat) ≠ []) ∧
    decodeRawPCM [0, 128, 0, 0] =
      some { numChannels := 1, sampleRate := 24000, samples := [-1, 0] } :=
  ⟨⟨by norm_num, by decide⟩,
    (decode_lossless [0, 128, 0, 0] (by norm_num) (by decide)).2⟩

/-!
## C4 — odd-length input fails the decode, non-fatally at the call site
-/

/-- C4: a byte buffer of odd length makes the decode fail (the `Int16Array`
construction throws a `RangeError`; no truncated buffer is ever produced),
and the `handleSpeak` call site catches the error and only logs it — the
session is never crashed. -/
theorem decode_odd_fails (data : List Nat) (h : data.length % 2 = 1) :
    decodeRawPCM data = none ∧ handleSpeak data = SpeakOutcome.loggedError := by
  have h0 : ¬ (data.length % 2 = 0 ∧ data.length ≠ 0) := by
    rintro ⟨h2, -⟩
    omega
  have hd : decodeRawPCM data = none := by
    unfold decodeRawPCM
    rw [if_neg h0]
  exact ⟨hd, by simp [handleSpeak, hd]⟩

/-- Witness for `decode_odd_fails` on the 3-byte input from the spec. -/
theorem decode_odd_fails_witness :
    ([0, 1, 2] : List Nat).length % 2 = 1 ∧
    decodeRawPCM [0, 1, 2] = none ∧ handleSpeak [0, 1, 2] = SpeakOutcome.loggedError :=
  ⟨by norm_num, decode_odd_fails [0, 1, 2] (by norm_num)⟩

/-!
## C5 — level samples stay in range
-/

/-- C5 counterexample: on a zero-length bin buffer the mean computation of
`updateVolume` divides the sum by the zero bin count, `0 / 0 = NaN` in
JavaScript (modelled as `none`): the claim that the output is in `[0, 1]`
and never NaN even for a zero-length bin buffer is false — there is no
defensive guard. -/
theorem updateVolume_empty_nan : updateVolume [] = none := rfl

/-- C5 amended: with a nonzero bin count — always the case in the code,
where the bin count is the constant 32 (live-mic indicator) resp. 16 (mini
waveform) — every scalar volume is defined (never NaN) and lies in `[0, 1]`,
and each of the 3 band values lies in `[0, 1]`, including on all-zero input
buffers; only a zero-length bin buffer, which cannot occur, would divide by
a zero bin count. -/
theorem levels_in_range (dataArray bands : List Nat)
    (hne : dataArray.length ≠ 0)
    (_hd : ∀ x ∈ dataArray, x ≤ 255) (hb : ∀ x ∈ bands, x ≤ 255) :
    (∃ v : ℚ, updateVolume dataArray = some v ∧ 0 ≤ v ∧ v ≤ 1) ∧
    (∀ q ∈ miniBands bands, 0 ≤ q ∧ q ≤ 1) := by
  constructor
  · refine ⟨min 1 (((dataArray.sum : ℚ) / (dataArray.length : ℚ)) / 128),
      by simp [updateVolume, hne], ?_, min_le_left _ _⟩
    have hsum : (0 : ℚ) ≤ (dataArray.sum : ℚ) := by positivity
    have hlen : (0 : ℚ) ≤ (dataArray.length : ℚ) := by positivity
    have : (0 : ℚ) ≤ ((dataArray.sum : ℚ) / (dataArray.length : ℚ)) / 128 := by positivity
    exact le_min (by norm_num) this
  · intro q hq
    have key : ∀ i : Nat, 0 ≤ ((bands.getD i 0 : Nat) : ℚ) / 255 ∧
        ((bands.getD i 0 : Nat) : ℚ) / 255 ≤ 1 := by
      intro i
      have h255 : bands.getD i 0 ≤ 255 := getD_le_of_forall_le hb i
      constructor
      · positivity
      · rw [div_le_one (by norm_num)]
        exact_mod_cast h255
    simp only [miniBands, List.mem_cons, List.not_mem_nil, or_false] at hq
    rcases hq with rfl | rfl | rfl
    · exact key 1
    · exact key 4
    · exact key 8

/-- Witness for `levels_in_range` on the all-zero buffers of the components'
actual bin counts (32 and 16). -/
theorem levels_in_range_witness :
    ((List.replicate liveMicBinCount 0).length ≠ 0 ∧
      (∀ x ∈ List.replicate liveMicBinCount (0 : Nat), x ≤ 255) ∧
      (∀ x ∈ List.replicate miniBinCount (0 : Nat), x ≤ 255)) ∧
    ((∃ v : ℚ, updateVolume (List.replicate liveMicBinCount 0) = some v ∧ 0 ≤ v ∧ v ≤ 1) ∧
      (∀ q ∈ miniBands (List.replicate miniBinCount 0), 0 ≤ q ∧ q ≤ 1)) := by
  refine ⟨⟨by decide, ?_, ?_⟩, ?_⟩
  · intro x hx
    simp [List.eq_of_mem_replicate hx]
  · intro x hx
    simp [List.eq_of_mem_replicate hx]
  · exact levels_in_range (List.replicate liveMicBinCount 0) (List.replicate miniBinCount 0)
      (by decide)
      (fun x hx => by simp [List.eq_of_mem_replicate hx])
      (fun x hx => by simp [List.eq_of_mem_replicate hx])

/-!
## C6 — analyzer formulas
-/

/-- C6: at every polling tick, the scalar volume computed by the live-mic
analyzer equals the mean magnitude over all bins divided by the reference
ceiling 128 and clamped to 1 (`scalarVolumeSpec`), and the three band levels
of the mini waveform are the magnitudes at its representative low/mid/high
bins 1, 4, 8 — each a valid index into its 16-bin buffer — divided by the
maximum representable magnitude 255. -/
theorem analyzer_formulas (dataArray bands : List Nat)
    (h : dataArray.length = liveMicBinCount) (_hb : bands.length = miniBinCount) :
    updateVolume dataArray = some (scalarVolumeSpec dataArray) ∧
    miniBands bands =
      [ (bands.getD 1 0 : ℚ) / 255
      , (bands.getD 4 0 : ℚ) / 255
      , (bands.getD 8 0 : ℚ) / 255 ] ∧
    1 < miniBinCount ∧ 4 < miniBinCount ∧ 8 < miniBinCount := by
  have hne : dataArray.length ≠ 0 := by
    rw [h]
    decide
  exact ⟨by simp [updateVolume, scalarVolumeSpec, hne], rfl, by decide, by decide, by decide⟩

/-- Witness for `analyzer_formulas` on the all-zero buffers of the actual
bin counts. -/
theorem analyzer_formulas_witness :
    ((List.replicate liveMicBinCount (0 : Nat)).length = liveMicBinCount ∧
      (List.replicate miniBinCount (0 : Nat)).length = miniBinCount) ∧
    updateVolume (List.replicate liveMicBinCount 0) =
      some (scalarVolumeSpec (List.replicate liveMicBinCount 0)) :=
  ⟨⟨by simp, by simp⟩,
    (analyzer_formulas (List.replicate liveMicBinCount 0) (List.replicate miniBinCount 0)
      (by simp) (by simp)).1⟩

/-!
## C1 — recorder round trip
-/

/-- C1 counterexample: after start, three non-empty chunks and stop, the
finalized object is indeed the ordered concatenation tagged `audio/webm`,
but the internal chunk buffer still holds `[[1], [2], [3]] ≠ []` immediately
after the handoff — `onstop` never clears `audioChunksRef`; it is only
cleared at the *next* `startRecording`. -/
theorem recorder_roundtrip_counterexample :
    (run initState
      [Ev.start, Ev.dataAvail 0 [1], Ev.dataAvail 0 [2], Ev.dataAvail 0 [3], Ev.stop]).finalized
      = [{ data := [1, 2, 3], type := "audio/webm" }] ∧
    (run initState
      [Ev.start, Ev.dataAvail 0 [1], Ev.dataAvail 0 [2], Ev.dataAvail 0 [3], Ev.stop]).chunks
      = [[1], [2], [3]] ∧
    ([[1], [2], [3]] : List (List Nat)) ≠ [] := by
  refine ⟨?_, ?_, by decide⟩ <;> rfl

/-- C1 amended: for every sequence of non-empty chunks `[c1, c2, c3]`
appended between start and stop, exactly one finalized object is delivered
and it is the ordered concatenation of the chunks tagged `audio/webm`; the
internal chunk buffer is NOT emptied at handoff — it still holds the three
chunks — and is cleared only when the next `startRecording` begins. -/
theorem recorder_roundtrip (c1 c2 c3 : List Nat)
    (h1 : c1 ≠ []) (h2 : c2 ≠ []) (h3 : c3 ≠ []) :
    (run initState
      [Ev.start, Ev.dataAvail 0 c1, Ev.dataAvail 0 c2, Ev.dataAvail 0 c3, Ev.stop]).finalized
      = [{ data := c1 ++ c2 ++ c3, type := "audio/webm" }] ∧
    (run initState
      [Ev.start, Ev.dataAvail 0 c1, Ev.dataAvail 0 c2, Ev.dataAvail 0 c3, Ev.stop]).chunks
      = [c1, c2, c3] ∧
    (run initState
      [Ev.start, Ev.dataAvail 0 c1, Ev.dataAvail 0 c2, Ev.dataAvail 0 c3, Ev.stop, Ev.start]).chunks
      = [] := by
  simp [run, step, stopRecorderPart, stopStreamPart, initState, h1, h2, h3, List.append_assoc]

/-- Witness for `recorder_roundtrip` on the chunks `[1]`, `[2]`, `[3]`. -/
theorem recorder_roundtrip_witness :
    (([1] : List Nat) ≠ [] ∧ ([2] : List Nat) ≠ [] ∧ ([3] : List Nat) ≠ []) ∧
    (run initState
      [Ev.start, Ev.dataAvail 0 [1], Ev.dataAvail 0 [2], Ev.dataAvail 0 [3], Ev.stop]).finalized
      = [{ data := [1] ++ [2] ++ [3], type := "audio/webm" }] :=
  ⟨⟨by decide, by decide, by decide⟩,
    (recorder_roundtrip [1] [2] [3] (by decide) (by decide) (by decide)).1⟩

/-!
## C7 — gain is not a live update
-/

/-- C7 counterexample: starting a session at the default sensitivity 50 and
then moving the slider to 100 during the active session leaves the live
stream's gain node at factor 1; the claim that subsequent samples are scaled
by the new factor `100 / 50 = 2` is false — the gain is applied only when
the stream graph is constructed in `startRecording`. -/
theorem gain_live_update_counterexample :
    (run initState [Ev.start, Ev.setSens 100]).isRecording = true ∧
    (run initState [Ev.start, Ev.setSens 100]).appliedGain = some (gainFactor 50) ∧
    gainFactor 50 = 1 ∧ gainFactor 100 = 2 ∧ gainFactor 50 ≠ gainFactor 100 := by
  refine ⟨rfl, rfl, ?_, ?_, ?_⟩ <;> norm_num [gainFactor]

/-- C7 amended: changing the GainSetting during an active session only
updates the stored React state and leaves the live stream's gain factor
unchanged (no live update); the new setting takes effect only when the next
`startRecording` reconstructs the stream graph, which then applies factor
`s / 50`. -/
theorem gain_applied_at_start_only (st : AppState) (s : Nat) :
    (step st (Ev.setSens s)).appliedGain = st.appliedGain ∧
    (step st (Ev.setSens s)).isRecording = st.isRecording ∧
    (run st [Ev.setSens s, Ev.start]).appliedGain = some (gainFactor s) := by
  refine ⟨rfl, rfl, ?_⟩
  simp [run, step]

/-!
## C8 — at most one active recorder
-/

/-- C8 counterexample: calling start while a recording is already active is
neither rejected nor an implicit stop-then-restart — after two starts both
recorders are in the recording state, and the first (superseded) recorder
still appends its chunks to the shared buffer. -/
theorem single_recorder_counterexample :
    countRecording (run initState [Ev.start, Ev.start]) = 2 ∧
    (run initState [Ev.start, Ev.start]).recStates = [true, true] ∧
    (step (run initState [Ev.start, Ev.start]) (Ev.dataAvail 0 [7])).chunks = [[7]] := by
  refine ⟨?_, rfl, ?_⟩ <;> rfl

/-- Guard on an event sequence: `start` is only ever fired from a state in
which no recorder is recording (the discipline the UI's
mouse-down/mouse-up pairing is meant to provide). -/
def startsGuarded : AppState → List Ev → Bool
  | _, [] => true
  | st, e :: es =>
    ((e != Ev.start) || (countRecording st == 0)) && startsGuarded (step st e) es

theorem stopStreamPart_recStates (st : AppState) :
    (stopStreamPart st).recStates = st.recStates := by
  unfold stopStreamPart
  cases st.curStream <;> rfl

theorem stopRecorderPart_curStream (st : AppState) :
    (stopRecorderPart st).curStream = st.curStream := by
  unfold stopRecorderPart
  split
  · split <;> rfl
  · rfl

theorem stopRecorderPart_streamStopped (st : AppState) :
    (stopRecorderPart st).streamStopped = st.streamStopped := by
  unfold stopRecorderPart
  split
  · split <;> rfl
  · rfl

theorem stopStreamPart_streamStopped (st : AppState) (j : Nat)
    (h : st.curStream = some j) :
    (stopStreamPart st).streamStopped = st.streamStopped.set j true := by
  unfold stopStreamPart
  rw [h]

theorem stopRecorderPart_count_le (st : AppState) :
    (stopRecorderPart st).recStates.count true ≤ st.recStates.count true := by
  unfold stopRecorderPart
  split
  · split
    · exact count_true_set_false st.recStates _
    · exact le_refl _
  · exact le_refl _

theorem countRecording_step_le (st : AppState) (e : Ev) (he : e ≠ Ev.start) :
    countRecording (step st e) ≤ countRecording st := by
  cases e with
  | start => exact absurd rfl he
  | startFailSetup => exact le_refl _
  | startFailAcquire => exact le_refl _
  | setSens s => exact le_refl _
  | dataAvail i c =>
    show ((if st.recStates.getD i false = true ∧ c ≠ [] then
      { st with chunks := st.chunks ++ [c] } else st)).recStates.count true
      ≤ st.recStates.count true
    by_cases hc : st.recStates.getD i false = true ∧ c ≠ []
    · rw [if_pos hc]
    · rw [if_neg hc]
  | stop =>
    show (stopStreamPart (stopRecorderPart st)).recStates.count true
      ≤ st.recStates.count true
    rw [stopStreamPart_recStates]
    exact stopRecorderPart_count_le st

/-- C8 amended: start while already recording is neither rejected nor a
stop-then-restart (see the counterexample), so the invariant holds only for
the guarded traces in which start is never fired while a recorder is
recording: along every such trace at most one recorder is ever in the
recording state, hence at most one recording buffer accumulates chunks. -/
theorem single_recorder_of_guarded (st : AppState) (es : List Ev)
    (h0 : countRecording st ≤ 1) (hg : startsGuarded st es = true) :
    countRecording (run st es) ≤ 1 := by
  induction es generalizing st with
  | nil => simpa [run] using h0
  | cons e es ih =>
    rw [startsGuarded, Bool.and_eq_true] at hg
    obtain ⟨hge, hges⟩ := hg
    have hstep : countRecording (step st e) ≤ 1 := by
      by_cases he : e = Ev.start
      · subst he
        have hz : countRecording st = 0 := by
          rcases Bool.or_eq_true _ _ |>.mp hge with h | h
          · simp at h
          · exact beq_iff_eq.mp h
        show (st.recStates ++ [true]).count true ≤ 1
        rw [List.count_append]
        simp [countRecording] at hz
        simp [hz]
      · exact le_trans (countRecording_step_le st e he) h0
    have : run st (e :: es) = run (step st e) es := rfl
    rw [this]
    exact ih (step st e) hstep hges

/-- Witness for `single_recorder_of_guarded` on a concrete guarded trace
with two full start/stop sessions. -/
theorem single_recorder_witness :
    (countRecording initState ≤ 1 ∧
      startsGuarded initState
        [Ev.start, Ev.dataAvail 0 [1], Ev.stop, Ev.start, Ev.stop] = true) ∧
    countRecording
      (run initState [Ev.start, Ev.dataAvail 0 [1], Ev.stop, Ev.start, Ev.stop]) ≤ 1 :=
  ⟨⟨by decide, by rfl⟩,
    single_recorder_of_guarded initState
      [Ev.start, Ev.dataAvail 0 [1], Ev.stop, Ev.start, Ev.stop] (by decide) (by rfl)⟩

/-!
## C9 — stream release
-/

/-- C9 counterexample: when `getUserMedia` succeeds but a later setup step
throws, `startRecording` exits through its catch block without stopping any
track of the acquired stream: on this exit path the stream is not
released. -/
theorem stream_release_counterexample :
    (step initState Ev.startFailSetup).curStream = some 0 ∧
    (step initState Ev.startFailSetup).streamStopped = [false] := by
  exact ⟨rfl, rfl⟩

/-- C9 amended: the acquired capture stream is released only by
`stopRecording`, which stops all tracks of the currently referenced stream —
after a successful start, and even after a failed setup, a subsequent stop
releases the stream acquired by that start; but `startRecording` itself
releases nothing on its error exit path (see the counterexample). -/
theorem stream_released_by_stop (st : AppState) :
    (run st [Ev.start, Ev.stop]).streamStopped.getD st.streamStopped.length false = true ∧
    (run st [Ev.startFailSetup, Ev.stop]).streamStopped.getD st.streamStopped.length false
      = true ∧
    (step st Ev.startFailSetup).streamStopped.getD st.streamStopped.length false = false := by
  have key : ∀ st2 : AppState,
      st2.curStream = some st.streamStopped.length →
      st2.streamStopped = st.streamStopped ++ [false] →
      (step st2 Ev.stop).streamStopped.getD st.streamStopped.length false = true := by
    intro st2 hcs hss
    have hcs2 : (stopRecorderPart st2).curStream = some st.streamStopped.length := by
      rw [stopRecorderPart_curStream, hcs]
    show (stopStreamPart (stopRecorderPart st2)).streamStopped.getD
      st.streamStopped.length false = true
    rw [stopStreamPart_streamStopped _ _ hcs2, stopRecorderPart_streamStopped, hss,
      set_append_singleton, getD_append_singleton]
  refine ⟨?_, ?_, ?_⟩
  · exact key (step st Ev.start) rfl rfl
  · exact key (step st Ev.startFailSetup) rfl rfl
  · show (st.streamStopped ++ [false]).getD st.streamStopped.length false = false
    exact getD_append_singleton st.streamStopped false

/-!
## C10 — speak returns decoded audio or throws
-/

/-- C10: for every synthesis response, `speak` either throws
`"No audio returned"` — exactly when the response carries no inline audio
data (absent, or the empty string, both falsy in JavaScript) — or returns
the byte buffer obtained by base64-decoding the response's inline audio
data; in particular it never returns any buffer at all, empty or otherwise,
for a response lacking audio. -/
theorem speak_audio_or_error (resp : SpeakResponse) :
    ((resp.inlineData = none ∨ resp.inlineData = some "") →
      speak resp = Except.error "No audio returned") ∧
    (∀ bytes : List Nat, speak resp = Except.ok bytes →
      ∃ b64, resp.inlineData = some b64 ∧ b64 ≠ "" ∧ decodeBase64 b64 = some bytes) := by
  constructor
  · intro h
    rcases h with h | h <;> simp [speak, h]
  · intro bytes hok
    cases hd : resp.inlineData with
    | none => simp [speak, hd] at hok
    | some b64 =>
      refine ⟨b64, rfl, ?_, ?_⟩
      · intro hempty
        subst hempty
        simp [speak, hd] at hok
      · by_cases hb : b64 = ""
        · subst hb
          simp [speak, hd] at hok
        · cases hdec : decodeBase64 b64 with
          | none => simp [speak, hd, hb, hdec] at hok
          | some bs =>
            have hbs : bs = bytes := by
              simpa [speak, hd, hb, hdec] using hok
            rw [hbs]

/-- Witness for `speak_audio_or_error`: a response without inline audio
throws, and a response carrying the base64 data `AQID` yields the decoded
bytes `[1, 2, 3]`. -/
theorem speak_audio_or_error_witness :
    speak { inlineData := none } = Except.error "No audio returned" ∧
    (∃ b64, (some (String.mk ['A', 'Q', 'I', 'D']) : Option String) = some b64 ∧
      b64 ≠ "" ∧ decodeBase64 b64 = some [1, 2, 3]) :=
  ⟨(speak_audio_or_error { inlineData := none }).1 (Or.inl rfl),
    (speak_audio_or_error { inlineData := some (String.mk ['A', 'Q', 'I', 'D']) }).2
      [1, 2, 3] rfl⟩

end SentinelVoice
